import Mathlib

/-!
Shallow embedding of `src/backup.py` (a backup/restore orchestrator for an
AWX deployment on Kubernetes) and proofs about it.

Modelling conventions:
* Python strings are Lean `String`s; Python string methods `endswith`,
  `startswith` and `removeprefix` operate on code points, so they are
  embedded at the level of `String.data : List Char`.
* Parsed JSON values (`json.loads`) are modelled by the inductive type
  `Json`; Python `dict`s appear as association lists with unique keys,
  `d[k] = v` is `aset`, `d.get(k)` / `d[k]` are `alookup`.
* External effects (kubectl invocations, writes to stderr) are reified as
  values: each operation returns the list of effects it performs.
* A Python exception (KeyError, AttributeError, TypeError) aborts the
  process; fallible operations therefore return `Option`, with `none`
  standing for such an abnormal termination.
-/

namespace Backup

/-- Python `s.endswith(suffix)` at code-point level. -/
def endsWithPy (s suffix : String) : Bool :=
  suffix.data.isSuffixOf s.data

/-- Python `s.startswith(pre)` at code-point level. -/
def startsWithPy (s pre : String) : Bool :=
  pre.data.isPrefixOf s.data

/-- Python `s.removeprefix(pre)`: drop `pre` from the front when it is a
prefix of `s`, otherwise return `s` unchanged. -/
def removePrefixPy (s pre : String) : String :=
  if pre.data.isPrefixOf s.data then String.mk (s.data.drop pre.data.length) else s

/-- Lookup in an association list (Python `dict` access): value of the first
entry whose key matches. -/
def alookup {α : Type} : List (String × α) → String → Option α
  | [], _ => none
  | (k, v) :: rest, key => if k = key then some v else alookup rest key

/-- Update in an association list (Python `d[k] = v`): replace the value of
the first entry with key `k`, or append a new entry when the key is absent. -/
def aset {α : Type} : List (String × α) → String → α → List (String × α)
  | [], k, v => [(k, v)]
  | (k', v') :: rest, k, v =>
    if k' = k then (k, v) :: rest else (k', v') :: aset rest k v

/-- Parsed JSON values, as produced by Python `json.loads`. -/
inductive Json where
  | null
  | bool (b : Bool)
  | num (n : Int)
  | str (s : String)
  | arr (elems : List Json)
  | obj (fields : List (String × Json))

/-- Python truthiness of a JSON value (`if x:`). -/
def Json.truthy : Json → Bool
  | .null => false
  | .bool b => b
  | .num n => n != 0
  | .str s => !s.isEmpty
  | .arr elems => !elems.isEmpty
  | .obj fields => !fields.isEmpty

/-- Field access on a JSON value: `some` only on objects that carry the key
(Python `d[k]` / `d.get(k)` after `json.loads`). -/
def Json.get? : Json → String → Option Json
  | .obj fields, k => alookup fields k
  | _, _ => none

/-- Fields of a JSON object; `none` on non-objects (where Python `dict`
methods would raise). -/
def Json.asObj? : Json → Option (List (String × Json))
  | .obj fields => some fields
  | _ => none

/-- Effects `recreate_secret` can perform: a `kubectl get secret <n> -o json`,
a `kubectl apply -f -` of a JSON object, or a message on stderr (the function
never prints, but the constructor makes "no output" expressible). -/
inductive Effect where
  | getSecret (name : String)
  | applySecret (obj : Json)
  | printErr (msg : String)

/-- Key of the ownership label consulted by `recreate_secret`. -/
def partOfKey : String := "app.kubernetes.io/part-of"

/-- Embedding of `Deployment.recreate_secret` (src/backup.py lines 120-128).
`cluster n` is the parsed JSON object that `kubectl get secret n -o json`
returns; `operator_name` is the current deployment's operator name.  The
result is the list of effects performed, or `none` when Python would raise
(missing `metadata`/`name`/`data` keys, non-dict metadata or labels,
non-string name or label). -/
def recreate_secret (cluster : String → List (String × Json))
    (operator_name : String) (old_secret : Json) : Option (List Effect) := do
  let md ← old_secret.get? "metadata"
  let mdFields ← md.asObj?
  let labels := (alookup mdFields "labels").getD (Json.obj [])
  let labelFields ← labels.asObj?
  match alookup labelFields partOfKey with
  | none => pure []
  | some old_operator_name =>
    if old_operator_name.truthy then do
      let nameJ ← alookup mdFields "name"
      match nameJ, old_operator_name with
      | .str old_secret_name, .str oldOp =>
        let new_secret_name := operator_name ++ removePrefixPy old_secret_name oldOp
        let current_fields := cluster new_secret_name
        let d ← old_secret.get? "data"
        let applied := Json.obj (aset current_fields "data" d)
        pure [Effect.getSecret new_secret_name, Effect.applySecret applied]
      | _, _ => none
    else
      pure []

/-- Result of a `subprocess.run` call: the exit status, and the captured
stdout/stderr, which are present exactly when `capture_output` was set
(`run_k8s` sets it iff the caller supplied no stdout stream). -/
structure SubprocResult where
  returncode : Int
  capturedOut : Option String
  capturedErr : Option String

/-- Observable outcome of `run_k8s`: either the whole process terminates via
`sys.exit(code)` after printing `errMsg` on stderr, or execution continues
with the returned value (`none` when the caller supplied a stdout stream). -/
inductive RunK8sOutcome where
  | exit (code : Int) (errMsg : String)
  | ok (ret : Option String)

/-- Python `print(x)` of an `Option`-valued field: `None` prints as "None". -/
def pyShowOpt : Option String → String
  | some s => s
  | none => "None"

/-- Embedding of `Deployment.run_k8s` (src/backup.py lines 21-35).
`run` is the subprocess: it receives the full argv (`kubectl -n <ns> <cmd>`)
and yields a `SubprocResult`.  `stdoutSupplied` records whether the caller
passed its own stdout stream (then `capture_output` is off).  Byte/str
decoding is collapsed: both are modelled as `String`. -/
def run_k8s (run : List String → SubprocResult) (ns : String)
    (cmd : List String) (stdoutSupplied : Bool) : RunK8sOutcome :=
  let command := ["kubectl", "-n", ns] ++ cmd
  let result := run command
  if result.returncode ≠ 0 then
    RunK8sOutcome.exit result.returncode (pyShowOpt result.capturedErr)
  else
    RunK8sOutcome.ok (if stdoutSupplied then none else result.capturedOut)

/-- One cluster-CLI invocation as issued by `exec_k8s`/`exec_db`: the
argument list handed to `run_k8s`, the bytes supplied on stdin, and whether
the caller passed its own stdout/stderr streams. -/
structure Invocation where
  args : List String
  stdinData : Option String
  stdoutSupplied : Bool
  stderrSupplied : Bool

/-- Python truthiness of an optional bytes value (`if stdin:`). -/
def truthyOptStr : Option String → Bool
  | none => false
  | some s => !s.isEmpty

/-- Embedding of `Deployment.exec_k8s` (src/backup.py lines 37-47): build the
`kubectl exec` argument list, attaching `-i` exactly when stdin is truthy. -/
def exec_k8s (pod container : String) (cmd : List String)
    (stdin : Option String) (stdoutSupplied stderrSupplied : Bool) : Invocation :=
  { args := ["exec"] ++ (if truthyOptStr stdin then ["-i"] else [])
      ++ [pod, "-c", container, "--"] ++ cmd,
    stdinData := stdin,
    stdoutSupplied := stdoutSupplied,
    stderrSupplied := stderrSupplied }

/-- The decoded database credentials (`Deployment.db_configuration` after
`decode`): username, password and database name. -/
structure DbConfiguration where
  username : String
  password : String
  database : String

/-- Embedding of `Deployment.exec_db` (src/backup.py lines 49-62): run a
database utility inside the `postgres` container of the database pod, with
the password injected through the environment and user/host flags fixed. -/
def exec_db (cfg : DbConfiguration) (db_pod : String) (cmd : String)
    (args : List String) (stdin : Option String)
    (stdoutSupplied stderrSupplied : Bool) : Invocation :=
  exec_k8s db_pod "postgres"
    (["env", "PGPASSWORD=" ++ cfg.password, cmd,
      "-U", cfg.username, "-h", "localhost"] ++ args)
    stdin stdoutSupplied stderrSupplied

/-- Embedding of `Deployment.recreate_db` (src/backup.py lines 93-118): the
three database commands it issues, in order.  `backup` is the dump bytes.
For the restore step the caller's `sys.stdout`/`sys.stderr` are passed
through (`stdoutSupplied`/`stderrSupplied` true). -/
def recreate_db (cfg : DbConfiguration) (db_pod : String)
    (backup : String) : List Invocation :=
  [ exec_db cfg db_pod "dropdb" ["--force", "--if-exists", cfg.database]
      none false false,
    exec_db cfg db_pod "createdb" ["--owner=" ++ cfg.username, cfg.database]
      none false false,
    exec_db cfg db_pod "pg_restore" ["-d", cfg.database, "-x", "-1", "--verbose"]
      (some backup) true true ]

/-- Cluster-side data consumed by `Deployment.backup`: the secret names
returned by the jsonpath listing (already split on whitespace), the JSON
text `kubectl get secret <n> -o json` writes for each name, and the bytes
`pg_dump -Fc` emits. -/
structure ClusterState where
  secretNames : List String
  secretJson : String → String
  dumpOutput : String

/-- Name of the database-configuration secret fetched in
`Deployment.__init__` (src/backup.py line 18). -/
def dbConfigSecretName (operator_name : String) : String :=
  operator_name ++ "-postgres-configuration"

/-- Secret-export loop of `Deployment.backup` (src/backup.py lines 80-86):
for each listed secret name in order, skip it when it ends in
`postgres-configuration`, otherwise write the cluster's JSON for it to the
file `<name>_secret.json` in the working directory `files`. -/
def secretsFold (json : String → String) :
    List String → List (String × String) → List (String × String)
  | [], files => files
  | secret_name :: rest, files =>
    secretsFold json rest
      (if endsWithPy secret_name "postgres-configuration" then files
       else aset files (secret_name ++ "_secret.json") (json secret_name))

/-- The secret-export loop applied to a cluster state. -/
def backupSecretsLoop (c : ClusterState)
    (files : List (String × String)) : List (String × String) :=
  secretsFold c.secretJson c.secretNames files

/-- Contents of the working directory right before `Deployment.backup` tars
it: `backup.dump` holding the dump bytes, then one file per exported
secret. -/
def backupWorkdirFiles (c : ClusterState) : List (String × String) :=
  backupSecretsLoop c (aset [] "backup.dump" c.dumpOutput)

/-- A member of the tar archive: a directory entry or a regular file with
its contents. -/
inductive TarMember where
  | dir (name : String)
  | file (name : String) (content : String)
  deriving DecidableEq

/-- Result of a successful `Deployment.backup` run. -/
structure BackupResult where
  tarName : String
  tarMembers : List TarMember
  workdirExists : Bool

/-- Embedding of `Deployment.backup` (src/backup.py lines 69-91): build the
working directory, tar it (`tar.add(name)` stores the directory entry plus
each file under `<name>/`), then remove the working directory. -/
def backup (c : ClusterState) (name : String) : BackupResult :=
  let files := backupWorkdirFiles c
  { tarName := name ++ ".tar",
    tarMembers := TarMember.dir name ::
      files.map (fun p => TarMember.file (name ++ "/" ++ p.1) p.2),
    workdirExists := false }

/-- A tar member as seen by `Deployment.restore`: its name, whether its type
is `tarfile.DIRTYPE`, and its extracted bytes. -/
structure TarEntry where
  name : String
  isDir : Bool
  content : String

/-- Action `Deployment.restore` takes on one archive member. -/
inductive RestoreAction where
  | restoreDb (dump : String)
  | restoreSecret (raw : String)
  | skip
  | warn (msg : String)
  deriving DecidableEq

/-- Stderr output produced by one restore action: only `warn` prints. -/
def RestoreAction.errOutput : RestoreAction → Option String
  | .warn msg => some msg
  | _ => none

/-- Member dispatch of `Deployment.restore` (src/backup.py lines 134-144):
`.dump` members feed `recreate_db`, `_secret.json` members feed
`recreate_secret` (after `json.loads`), directory entries are passed over,
anything else draws a warning on stderr. -/
def restoreStep (m : TarEntry) : RestoreAction :=
  if endsWithPy m.name ".dump" then
    RestoreAction.restoreDb m.content
  else if endsWithPy m.name "_secret.json" then
    RestoreAction.restoreSecret m.content
  else if !m.isDir then
    RestoreAction.warn ("Unknown backup file " ++ m.name)
  else
    RestoreAction.skip

/-- The for-loop of `Deployment.restore` over the archive members: every
member is dispatched and iteration always continues to the next member. -/
def restoreTrace : List TarEntry → List RestoreAction
  | [] => []
  | m :: rest => restoreStep m :: restoreTrace rest

/-- Archive-name normalization at the top of `Deployment.restore`
(src/backup.py lines 131-132). -/
def restoreTarName (name : String) : String :=
  if !endsWithPy name ".tar" then name ++ ".tar" else name

/-- Keys of an association list. -/
def keys {α : Type} (fs : List (String × α)) : List String :=
  fs.map Prod.fst

/-- Concrete fixture: the old admin-password secret of the restore scenario
(deployment `awx-demo`). -/
def demoOldSecret : Json :=
  Json.obj [
    ("metadata", Json.obj [
      ("name", Json.str "awx-demo-admin-password"),
      ("labels", Json.obj [(partOfKey, Json.str "awx-demo")])]),
    ("data", Json.obj [("password", Json.str "c2VjcmV0")])]

/-- Concrete fixture: cluster responses for `kubectl get secret <n> -o json`,
carrying metadata that the merge must preserve. -/
def demoClusterFn : String → List (String × Json) := fun n =>
  [("apiVersion", Json.str "v1"),
   ("kind", Json.str "Secret"),
   ("metadata", Json.obj [
     ("name", Json.str n),
     ("annotations", Json.obj [("note", Json.str "kept")])]),
   ("data", Json.str "bootstrap-data")]

/-- Concrete fixture: an old secret whose metadata has no `labels` at all. -/
def unlabelledOldSecret : Json :=
  Json.obj [
    ("metadata", Json.obj [("name", Json.str "some-secret")]),
    ("data", Json.obj [("k", Json.str "v")])]

/-- Concrete fixture: an old secret whose name does not start with its
part-of label value. -/
def oddNameOldSecret : Json :=
  Json.obj [
    ("metadata", Json.obj [
      ("name", Json.str "standalone-secret"),
      ("labels", Json.obj [(partOfKey, Json.str "awx-demo")])]),
    ("data", Json.obj [("k", Json.str "v")])]

/-- Concrete fixture: a cluster whose only secret's name ends in
`postgres-configuration` without being the database-configuration secret of
operator `awx`. -/
def suffixTrapCluster : ClusterState :=
  ⟨["foo-postgres-configuration"], fun n => "json-of-" ++ n, "DUMPBYTES"⟩

/-- Concrete fixture: the two-secret cluster of the backup scenario. -/
def demoBackupCluster : ClusterState :=
  ⟨["awx-demo-postgres-configuration", "awx-demo-admin-password"],
   fun n => "json-of-" ++ n, "DUMPBYTES"⟩

/-! ### Helper lemmas: strings and association lists -/

theorem data_append_str (a b : String) : (a ++ b).data = a.data ++ b.data :=
  rfl

theorem append_cancel_right_str {a b c : String} (h : a ++ c = b ++ c) :
    a = b := by
  have hd : a.data ++ c.data = b.data ++ c.data := by
    have h2 := congrArg String.data h
    simpa using h2
  have h3 : a.data = b.data := List.append_cancel_right hd
  cases a
  cases b
  exact congrArg String.mk h3

theorem append_cancel_left_str {a b c : String} (h : a ++ b = a ++ c) :
    b = c := by
  have hd : a.data ++ b.data = a.data ++ c.data := by
    have h2 := congrArg String.data h
    simpa using h2
  have h3 : b.data = c.data := List.append_cancel_left hd
  cases b
  cases c
  exact congrArg String.mk h3

theorem endsWithPy_append (a b : String) : endsWithPy (a ++ b) b = true := by
  have hd : (a ++ b).data = a.data ++ b.data := rfl
  simp only [endsWithPy, hd]
  exact List.isSuffixOf_iff_suffix.mpr (List.suffix_append a.data b.data)

theorem keys_cons {α : Type} (k0 : String) (v0 : α) (tl : List (String × α)) :
    keys ((k0, v0) :: tl) = k0 :: keys tl :=
  rfl

theorem mem_keys_of_mem {α : Type} {p : String × α} {fs : List (String × α)}
    (h : p ∈ fs) : p.1 ∈ keys fs :=
  List.mem_map_of_mem Prod.fst h

theorem removePrefixPy_of_not_pre (s p : String)
    (h : startsWithPy s p = false) : removePrefixPy s p = s := by
  simp only [startsWithPy] at h
  simp [removePrefixPy, h]

theorem alookup_aset_self {α : Type} (fs : List (String × α)) (k : String)
    (v : α) : alookup (aset fs k v) k = some v := by
  induction fs with
  | nil => simp [aset, alookup]
  | cons hd tl ih =>
    obtain ⟨k', v'⟩ := hd
    by_cases h : k' = k
    · simp [aset, h, alookup]
    · simp [aset, h, alookup, ih]

theorem alookup_aset_ne {α : Type} (fs : List (String × α)) {k k' : String}
    (v : α) (h : k' ≠ k) : alookup (aset fs k v) k' = alookup fs k' := by
  have hne : k ≠ k' := Ne.symm h
  induction fs with
  | nil => simp [aset, alookup, hne]
  | cons hd tl ih =>
    obtain ⟨k0, v0⟩ := hd
    by_cases h0 : k0 = k
    · subst h0
      simp [aset, alookup, hne]
    · by_cases h1 : k0 = k'
      · simp [aset, alookup, h0, h1, h]
      · simp [aset, alookup, h0, h1, ih]

theorem mem_keys_aset {α : Type} (fs : List (String × α)) (k a : String)
    (v : α) : a ∈ keys (aset fs k v) ↔ a ∈ keys fs ∨ a = k := by
  induction fs with
  | nil => simp [aset, keys]
  | cons hd tl ih =>
    obtain ⟨k0, v0⟩ := hd
    by_cases h0 : k0 = k
    · subst h0
      rw [show aset ((k0, v0) :: tl) k0 v = (k0, v) :: tl by simp [aset]]
      simp only [keys_cons, List.mem_cons]
      tauto
    · rw [show aset ((k0, v0) :: tl) k v = (k0, v0) :: aset tl k v by
        simp [aset, h0]]
      simp only [keys_cons, List.mem_cons, ih]
      tauto

theorem keys_nodup_aset {α : Type} (fs : List (String × α)) (k : String)
    (v : α) (h : (keys fs).Nodup) : (keys (aset fs k v)).Nodup := by
  induction fs with
  | nil => simp [aset, keys]
  | cons hd tl ih =>
    obtain ⟨k0, v0⟩ := hd
    rw [keys_cons, List.nodup_cons] at h
    obtain ⟨hk0, htl⟩ := h
    by_cases h0 : k0 = k
    · subst h0
      rw [show aset ((k0, v0) :: tl) k0 v = (k0, v) :: tl by simp [aset],
        keys_cons, List.nodup_cons]
      exact ⟨hk0, htl⟩
    · rw [show aset ((k0, v0) :: tl) k v = (k0, v0) :: aset tl k v by
        simp [aset, h0], keys_cons, List.nodup_cons]
      refine ⟨?_, ih htl⟩
      intro hmem
      rcases (mem_keys_aset tl k k0 v).mp hmem with h1 | h1
      · exact hk0 h1
      · exact h0 h1

theorem mem_iff_alookup {α : Type} (fs : List (String × α)) (k : String)
    (v : α) (h : (keys fs).Nodup) : (k, v) ∈ fs ↔ alookup fs k = some v := by
  induction fs with
  | nil => simp [alookup]
  | cons hd tl ih =>
    obtain ⟨k0, v0⟩ := hd
    rw [keys_cons, List.nodup_cons] at h
    obtain ⟨hk0, htl⟩ := h
    by_cases h0 : k0 = k
    · subst h0
      rw [show alookup ((k0, v0) :: tl) k0 = some v0 by simp [alookup]]
      simp only [List.mem_cons, Option.some.injEq]
      constructor
      · rintro (h1 | h1)
        · rw [Prod.mk.injEq] at h1
          exact h1.2.symm
        · exact absurd (mem_keys_of_mem h1) hk0
      · intro h1
        exact Or.inl (by rw [h1])
    · rw [show alookup ((k0, v0) :: tl) k = alookup tl k by simp [alookup, h0]]
      rw [← ih htl]
      simp only [List.mem_cons]
      constructor
      · rintro (h1 | h1)
        · exfalso
          rw [Prod.mk.injEq] at h1
          exact h0 h1.1.symm
        · exact h1
      · exact Or.inr

/-! ### Helper lemmas: the secret-export loop of `backup` -/

theorem secretsFold_lookup_of_no_write (json : String → String)
    (names : List String) (files : List (String × String)) (k : String)
    (h : ∀ n ∈ names, endsWithPy n "postgres-configuration" = false →
      k ≠ n ++ "_secret.json") :
    alookup (secretsFold json names files) k = alookup files k := by
  induction names generalizing files with
  | nil => rfl
  | cons n0 rest ih =>
    simp only [secretsFold]
    by_cases hk : endsWithPy n0 "postgres-configuration" = true
    · rw [if_pos hk]
      exact ih _ (fun n' hn' hkeep => h n' (List.mem_cons_of_mem n0 hn') hkeep)
    · rw [if_neg hk]
      have hkeep0 : endsWithPy n0 "postgres-configuration" = false :=
        Bool.eq_false_iff.mpr hk
      rw [ih _ (fun n' hn' hkeep => h n' (List.mem_cons_of_mem n0 hn') hkeep)]
      exact alookup_aset_ne files _ (h n0 (List.mem_cons_self n0 rest) hkeep0)

theorem secretsFold_lookup_written (json : String → String)
    (names : List String) (files : List (String × String)) (n : String)
    (hmem : n ∈ names) (hkeep : endsWithPy n "postgres-configuration" = false) :
    alookup (secretsFold json names files) (n ++ "_secret.json") =
      some (json n) := by
  induction names generalizing files with
  | nil => cases hmem
  | cons n0 rest ih =>
    by_cases hr : n ∈ rest
    · simp only [secretsFold]
      exact ih _ hr
    · have hn0 : n = n0 := by
        rcases List.mem_cons.mp hmem with h1 | h1
        · exact h1
        · exact absurd h1 hr
      subst hn0
      have hside : ∀ n' ∈ rest, endsWithPy n' "postgres-configuration" = false →
          n ++ "_secret.json" ≠ n' ++ "_secret.json" := by
        intro n' hn' _ heq
        have he := append_cancel_right_str heq
        exact hr (by rw [he]; exact hn')
      simp only [secretsFold]
      rw [if_neg (by rw [hkeep]; exact Bool.false_ne_true)]
      rw [secretsFold_lookup_of_no_write json rest _ _ hside]
      exact alookup_aset_self files _ _

theorem secretsFold_lookup_inv (json : String → String)
    (names : List String) (files : List (String × String)) (k v : String)
    (h : alookup (secretsFold json names files) k = some v) :
    (∃ n, n ∈ names ∧ endsWithPy n "postgres-configuration" = false ∧
      k = n ++ "_secret.json" ∧ v = json n) ∨ alookup files k = some v := by
  induction names generalizing files with
  | nil => exact Or.inr h
  | cons n0 rest ih =>
    simp only [secretsFold] at h
    by_cases hk : endsWithPy n0 "postgres-configuration" = true
    · rw [if_pos hk] at h
      rcases ih _ h with ⟨n, hn, hkeep, hkey, hv⟩ | h2
      · exact Or.inl ⟨n, List.mem_cons_of_mem n0 hn, hkeep, hkey, hv⟩
      · exact Or.inr h2
    · rw [if_neg hk] at h
      have hkeep0 : endsWithPy n0 "postgres-configuration" = false :=
        Bool.eq_false_iff.mpr hk
      rcases ih _ h with ⟨n, hn, hkeep, hkey, hv⟩ | h2
      · exact Or.inl ⟨n, List.mem_cons_of_mem n0 hn, hkeep, hkey, hv⟩
      · by_cases hkk : k = n0 ++ "_secret.json"
        · subst hkk
          rw [alookup_aset_self] at h2
          exact Or.inl ⟨n0, List.mem_cons_self n0 rest, hkeep0, rfl,
            (Option.some.inj h2).symm⟩
        · rw [alookup_aset_ne _ _ hkk] at h2
          exact Or.inr h2

theorem secretsFold_keys_nodup (json : String → String)
    (names : List String) (files : List (String × String))
    (h : (keys files).Nodup) : (keys (secretsFold json names files)).Nodup := by
  induction names generalizing files with
  | nil => exact h
  | cons n0 rest ih =>
    simp only [secretsFold]
    by_cases hk : endsWithPy n0 "postgres-configuration" = true
    · rw [if_pos hk]
      exact ih _ h
    · rw [if_neg hk]
      exact ih _ (keys_nodup_aset _ _ _ h)

theorem backup_dump_name_ne (n : String) :
    "backup.dump" ≠ n ++ "_secret.json" := by
  intro h
  have hd := congrArg String.data h
  rw [data_append_str] at hd
  have hl := congrArg List.length hd
  simp only [List.length_append] at hl
  have h12 : ("_secret.json" : String).data.length = 12 := by decide
  have h11 : ("backup.dump" : String).data.length = 11 := by decide
  rw [h12, h11] at hl
  omega

theorem backupWorkdirFiles_lookup (c : ClusterState) (k v : String) :
    alookup (backupWorkdirFiles c) k = some v ↔
      (k = "backup.dump" ∧ v = c.dumpOutput) ∨
      (∃ n, n ∈ c.secretNames ∧ endsWithPy n "postgres-configuration" = false ∧
        k = n ++ "_secret.json" ∧ v = c.secretJson n) := by
  constructor
  · intro h
    simp only [backupWorkdirFiles, backupSecretsLoop] at h
    rcases secretsFold_lookup_inv _ _ _ _ _ h with h1 | h2
    · exact Or.inr h1
    · left
      by_cases hk : k = "backup.dump"
      · subst hk
        rw [alookup_aset_self] at h2
        exact ⟨rfl, (Option.some.inj h2).symm⟩
      · rw [alookup_aset_ne _ _ hk] at h2
        cases h2
  · rintro (⟨hk, hv⟩ | ⟨n, hn, hkeep, hk, hv⟩)
    · subst hk
      subst hv
      simp only [backupWorkdirFiles, backupSecretsLoop]
      rw [secretsFold_lookup_of_no_write _ _ _ _
        (fun n _ _ => backup_dump_name_ne n)]
      exact alookup_aset_self _ _ _
    · subst hk
      subst hv
      simp only [backupWorkdirFiles, backupSecretsLoop]
      exact secretsFold_lookup_written _ _ _ _ hn hkeep

theorem backupWorkdirFiles_keys_nodup (c : ClusterState) :
    (keys (backupWorkdirFiles c)).Nodup := by
  simp only [backupWorkdirFiles, backupSecretsLoop]
  refine secretsFold_keys_nodup _ _ _ ?_
  simp [aset, keys]

/-! ### Helper lemma: the successful run of `recreate_secret` -/

theorem recreate_secret_run (cluster : String → List (String × Json))
    (op : String) (old : Json) (mdFields lFields : List (String × Json))
    (v oldName : String) (d : Json)
    (hmd : old.get? "metadata" = some (Json.obj mdFields))
    (hlab : alookup mdFields "labels" = some (Json.obj lFields))
    (hpart : alookup lFields partOfKey = some (Json.str v))
    (hv : v ≠ "")
    (hname : alookup mdFields "name" = some (Json.str oldName))
    (hdata : old.get? "data" = some d) :
    recreate_secret cluster op old =
      some [Effect.getSecret (op ++ removePrefixPy oldName v),
        Effect.applySecret (Json.obj
          (aset (cluster (op ++ removePrefixPy oldName v)) "data" d))] := by
  have hvE : v.isEmpty = false := by
    cases he : v.isEmpty
    · rfl
    · exact absurd ((String.isEmpty_iff v).mp he) hv
  simp [recreate_secret, hmd, Json.asObj?, hlab, hpart, hname, hdata,
    Json.truthy, hvE]

/-! ### Claim theorems about `recreate_secret` -/

/-- C2: for every old secret whose metadata carries a non-empty
`app.kubernetes.io/part-of` label, `recreate_secret` computes the target
secret name by stripping the label value as a prefix from the old secret's
name and prepending the current operator name (witnessed in particular by
the `awx-demo` → `awx-demo-2` scenario). -/
theorem recreate_secret_resolves_remapped_name
    (cluster : String → List (String × Json)) (op : String) (old : Json)
    (mdFields lFields : List (String × Json)) (v oldName : String) (d : Json)
    (hmd : old.get? "metadata" = some (Json.obj mdFields))
    (hlab : alookup mdFields "labels" = some (Json.obj lFields))
    (hpart : alookup lFields partOfKey = some (Json.str v))
    (hv : v ≠ "")
    (hname : alookup mdFields "name" = some (Json.str oldName))
    (hdata : old.get? "data" = some d) :
    ∃ applied, recreate_secret cluster op old =
      some [Effect.getSecret (op ++ removePrefixPy oldName v),
            Effect.applySecret applied] :=
  ⟨_, recreate_secret_run cluster op old mdFields lFields v oldName d
    hmd hlab hpart hv hname hdata⟩

/-- Witness for C2 at the spec's scenario: old name
`awx-demo-admin-password`, part-of label `awx-demo`, current operator
`awx-demo-2`; the resolved name is `awx-demo-2-admin-password`. -/
theorem recreate_secret_resolves_remapped_name_witness :
    demoOldSecret.get? "metadata" = some (Json.obj
      [("name", Json.str "awx-demo-admin-password"),
       ("labels", Json.obj [(partOfKey, Json.str "awx-demo")])]) ∧
    ("awx-demo" : String) ≠ "" ∧
    ∃ applied, recreate_secret demoClusterFn "awx-demo-2" demoOldSecret =
      some [Effect.getSecret "awx-demo-2-admin-password",
            Effect.applySecret applied] := by
  refine ⟨rfl, by decide, ?_⟩
  have h := recreate_secret_resolves_remapped_name demoClusterFn "awx-demo-2"
    demoOldSecret
    [("name", Json.str "awx-demo-admin-password"),
     ("labels", Json.obj [(partOfKey, Json.str "awx-demo")])]
    [(partOfKey, Json.str "awx-demo")]
    "awx-demo" "awx-demo-admin-password"
    (Json.obj [("password", Json.str "c2VjcmV0")])
    rfl rfl rfl (by decide) rfl rfl
  have e : "awx-demo-2" ++ removePrefixPy "awx-demo-admin-password" "awx-demo"
      = "awx-demo-2-admin-password" := by decide
  rw [e] at h
  exact h

/-- C3: for an old secret whose metadata lacks the
`app.kubernetes.io/part-of` label, or whose label value is the empty string,
`recreate_secret` performs no cluster command at all and emits no output
(the effect trace is empty). -/
theorem recreate_secret_skips_unlabelled
    (cluster : String → List (String × Json)) (op : String) (old : Json)
    (mdFields : List (String × Json))
    (hmd : old.get? "metadata" = some (Json.obj mdFields))
    (hlab : alookup mdFields "labels" = none ∨
      ∃ lFields, alookup mdFields "labels" = some (Json.obj lFields) ∧
        (alookup lFields partOfKey = none ∨
         alookup lFields partOfKey = some (Json.str ""))) :
    recreate_secret cluster op old = some [] := by
  rcases hlab with hlab | ⟨lFields, hlab, hpart⟩
  · simp [recreate_secret, hmd, Json.asObj?, hlab, alookup]
  · rcases hpart with hpart | hpart
    · simp [recreate_secret, hmd, Json.asObj?, hlab, hpart]
    · have he : ("" : String).isEmpty = true := rfl
      simp [recreate_secret, hmd, Json.asObj?, hlab, hpart, Json.truthy, he]

/-- Witness for C3: a secret whose metadata has no `labels` at all is
skipped with an empty effect trace. -/
theorem recreate_secret_skips_unlabelled_witness :
    unlabelledOldSecret.get? "metadata" =
      some (Json.obj [("name", Json.str "some-secret")]) ∧
    alookup [("name", Json.str "some-secret")] "labels" = none ∧
    recreate_secret demoClusterFn "awx-demo-2" unlabelledOldSecret =
      some [] := by
  refine ⟨rfl, rfl, ?_⟩
  exact recreate_secret_skips_unlabelled demoClusterFn "awx-demo-2"
    unlabelledOldSecret [("name", Json.str "some-secret")] rfl (Or.inl rfl)

/-- C4: the object `recreate_secret` applies differs from the secret fetched
from the cluster under the new name only in its top-level `data` field,
which becomes the old secret's `data`; every other top-level field keeps the
fetched secret's value. -/
theorem recreate_secret_overwrites_only_data
    (cluster : String → List (String × Json)) (op : String) (old : Json)
    (mdFields lFields : List (String × Json)) (v oldName : String) (d : Json)
    (hmd : old.get? "metadata" = some (Json.obj mdFields))
    (hlab : alookup mdFields "labels" = some (Json.obj lFields))
    (hpart : alookup lFields partOfKey = some (Json.str v))
    (hv : v ≠ "")
    (hname : alookup mdFields "name" = some (Json.str oldName))
    (hdata : old.get? "data" = some d) :
    ∃ appliedFields,
      recreate_secret cluster op old =
        some [Effect.getSecret (op ++ removePrefixPy oldName v),
              Effect.applySecret (Json.obj appliedFields)] ∧
      alookup appliedFields "data" = some d ∧
      ∀ k, k ≠ "data" →
        alookup appliedFields k =
          alookup (cluster (op ++ removePrefixPy oldName v)) k := by
  refine ⟨aset (cluster (op ++ removePrefixPy oldName v)) "data" d, ?_, ?_, ?_⟩
  · exact recreate_secret_run cluster op old mdFields lFields v oldName d
      hmd hlab hpart hv hname hdata
  · exact alookup_aset_self _ _ _
  · intro k hk
    exact alookup_aset_ne _ _ hk

/-- Witness for C4: in the scenario, the applied object keeps every
non-`data` field of the fetched `awx-demo-2-admin-password` secret and takes
the old secret's `data`. -/
theorem recreate_secret_overwrites_only_data_witness :
    demoOldSecret.get? "data" =
      some (Json.obj [("password", Json.str "c2VjcmV0")]) ∧
    ∃ appliedFields,
      recreate_secret demoClusterFn "awx-demo-2" demoOldSecret =
        some [Effect.getSecret "awx-demo-2-admin-password",
              Effect.applySecret (Json.obj appliedFields)] ∧
      alookup appliedFields "data" =
        some (Json.obj [("password", Json.str "c2VjcmV0")]) ∧
      ∀ k, k ≠ "data" →
        alookup appliedFields k =
          alookup (demoClusterFn "awx-demo-2-admin-password") k := by
  refine ⟨rfl, ?_⟩
  have h := recreate_secret_overwrites_only_data demoClusterFn "awx-demo-2"
    demoOldSecret
    [("name", Json.str "awx-demo-admin-password"),
     ("labels", Json.obj [(partOfKey, Json.str "awx-demo")])]
    [(partOfKey, Json.str "awx-demo")]
    "awx-demo" "awx-demo-admin-password"
    (Json.obj [("password", Json.str "c2VjcmV0")])
    rfl rfl rfl (by decide) rfl rfl
  have e : "awx-demo-2" ++ removePrefixPy "awx-demo-admin-password" "awx-demo"
      = "awx-demo-2-admin-password" := by decide
  rw [e] at h
  exact h

/-- C10: when the old secret's name does not start with the part-of label
value, the prefix strip leaves the name unchanged, so the resolved secret
name is the current operator name concatenated with the entire old name. -/
theorem recreate_secret_nonmatching_label_keeps_name
    (cluster : String → List (String × Json)) (op : String) (old : Json)
    (mdFields lFields : List (String × Json)) (v oldName : String) (d : Json)
    (hmd : old.get? "metadata" = some (Json.obj mdFields))
    (hlab : alookup mdFields "labels" = some (Json.obj lFields))
    (hpart : alookup lFields partOfKey = some (Json.str v))
    (hv : v ≠ "")
    (hname : alookup mdFields "name" = some (Json.str oldName))
    (hdata : old.get? "data" = some d)
    (hpre : startsWithPy oldName v = false) :
    ∃ applied, recreate_secret cluster op old =
      some [Effect.getSecret (op ++ oldName), Effect.applySecret applied] := by
  have hrp := removePrefixPy_of_not_pre oldName v hpre
  have h := recreate_secret_run cluster op old mdFields lFields v oldName d
    hmd hlab hpart hv hname hdata
  rw [hrp] at h
  exact ⟨_, h⟩

/-- Witness for C10: old name `standalone-secret` does not start with label
value `awx-demo`, so the resolved name is the concatenation
`awx-demo-2standalone-secret`. -/
theorem recreate_secret_nonmatching_label_keeps_name_witness :
    startsWithPy "standalone-secret" "awx-demo" = false ∧
    ∃ applied,
      recreate_secret demoClusterFn "awx-demo-2" oddNameOldSecret =
        some [Effect.getSecret ("awx-demo-2" ++ "standalone-secret"),
              Effect.applySecret applied] := by
  refine ⟨by decide, ?_⟩
  exact recreate_secret_nonmatching_label_keeps_name demoClusterFn "awx-demo-2"
    oddNameOldSecret
    [("name", Json.str "standalone-secret"),
     ("labels", Json.obj [(partOfKey, Json.str "awx-demo")])]
    [(partOfKey, Json.str "awx-demo")]
    "awx-demo" "standalone-secret" (Json.obj [("k", Json.str "v")])
    rfl rfl rfl (by decide) rfl rfl (by decide)

/-! ### Claim theorems about the cluster command executor -/

/-- C5: for every cluster command invocation, a non-zero subprocess exit
writes the captured stderr to the error stream and terminates the whole
process with that same exit code; a zero exit continues, returning the
captured stdout when the caller supplied no stdout stream. -/
theorem run_k8s_failure_policy (run : List String → SubprocResult)
    (ns : String) (cmd : List String) (sup : Bool) :
    ((run (["kubectl", "-n", ns] ++ cmd)).returncode ≠ 0 →
      ∀ e, (run (["kubectl", "-n", ns] ++ cmd)).capturedErr = some e →
        run_k8s run ns cmd sup =
          RunK8sOutcome.exit (run (["kubectl", "-n", ns] ++ cmd)).returncode e) ∧
    ((run (["kubectl", "-n", ns] ++ cmd)).returncode = 0 → sup = false →
      ∀ o, (run (["kubectl", "-n", ns] ++ cmd)).capturedOut = some o →
        run_k8s run ns cmd sup = RunK8sOutcome.ok (some o)) := by
  constructor
  · intro hne e he
    simp only [List.cons_append, List.nil_append] at hne he
    simp [run_k8s, hne, pyShowOpt, he]
  · intro h0 hsup o ho
    simp only [List.cons_append, List.nil_append] at h0 ho
    simp [run_k8s, h0, hsup, ho]

/-- Witness for C5: a failing invocation exits with code 3 printing the
captured stderr, a succeeding one returns the captured stdout. -/
theorem run_k8s_failure_policy_witness :
    run_k8s (fun _ => ⟨3, some "out", some "boom"⟩) "awx" ["get", "pod"]
        false = RunK8sOutcome.exit 3 "boom" ∧
    run_k8s (fun _ => ⟨0, some "out", none⟩) "awx" ["get", "pod"]
        false = RunK8sOutcome.ok (some "out") := by
  constructor
  · exact (run_k8s_failure_policy (fun _ => ⟨3, some "out", some "boom"⟩)
      "awx" ["get", "pod"] false).1 (by decide) "boom" rfl
  · exact (run_k8s_failure_policy (fun _ => ⟨0, some "out", none⟩)
      "awx" ["get", "pod"] false).2 rfl rfl "out" rfl

/-- C6: `recreate_db` issues exactly three database commands in order:
`dropdb --force --if-exists` on the configured database, `createdb` owned by
the configured username, then `pg_restore --verbose` against the configured
database with the dump bytes on stdin and stdout/stderr passed through. -/
theorem recreate_db_command_sequence (cfg : DbConfiguration)
    (db_pod dump : String) (hd : dump ≠ "") :
    recreate_db cfg db_pod dump =
      [ ⟨["exec", db_pod, "-c", "postgres", "--",
          "env", "PGPASSWORD=" ++ cfg.password, "dropdb",
          "-U", cfg.username, "-h", "localhost",
          "--force", "--if-exists", cfg.database], none, false, false⟩,
        ⟨["exec", db_pod, "-c", "postgres", "--",
          "env", "PGPASSWORD=" ++ cfg.password, "createdb",
          "-U", cfg.username, "-h", "localhost",
          "--owner=" ++ cfg.username, cfg.database], none, false, false⟩,
        ⟨["exec", "-i", db_pod, "-c", "postgres", "--",
          "env", "PGPASSWORD=" ++ cfg.password, "pg_restore",
          "-U", cfg.username, "-h", "localhost",
          "-d", cfg.database, "-x", "-1", "--verbose"],
          some dump, true, true⟩ ] := by
  have hde : dump.isEmpty = false := by
    cases he : dump.isEmpty
    · rfl
    · exact absurd ((String.isEmpty_iff dump).mp he) hd
  simp [recreate_db, exec_db, exec_k8s, truthyOptStr, hde]

/-- Witness for C6 at concrete credentials and dump bytes. -/
theorem recreate_db_command_sequence_witness :
    ("DUMPBYTES" : String) ≠ "" ∧
    (recreate_db ⟨"admin", "pw", "awx"⟩ "db-pod" "DUMPBYTES").length = 3 ∧
    (recreate_db ⟨"admin", "pw", "awx"⟩ "db-pod" "DUMPBYTES").map
      Invocation.stdinData = [none, none, some "DUMPBYTES"] := by
  refine ⟨by decide, ?_, ?_⟩
  · rw [recreate_db_command_sequence ⟨"admin", "pw", "awx"⟩ "db-pod"
      "DUMPBYTES" (by decide)]
    rfl
  · rw [recreate_db_command_sequence ⟨"admin", "pw", "awx"⟩ "db-pod"
      "DUMPBYTES" (by decide)]
    rfl

/-! ### Claim theorems about `restore` -/

/-- C8: restore dispatches each archive member by its name — `.dump` members
feed the database restore with the member's bytes, `_secret.json` members
feed the secret restore, remaining directory entries are skipped with no
output, anything else draws an "unknown backup file" warning — and the
iteration continues after every member, warnings included. -/
theorem restore_member_dispatch (m : TarEntry) (rest : List TarEntry) :
    (endsWithPy m.name ".dump" = true →
      restoreStep m = RestoreAction.restoreDb m.content) ∧
    (endsWithPy m.name ".dump" = false →
      endsWithPy m.name "_secret.json" = true →
      restoreStep m = RestoreAction.restoreSecret m.content) ∧
    (endsWithPy m.name ".dump" = false →
      endsWithPy m.name "_secret.json" = false → m.isDir = true →
      restoreStep m = RestoreAction.skip ∧
      (restoreStep m).errOutput = none) ∧
    (endsWithPy m.name ".dump" = false →
      endsWithPy m.name "_secret.json" = false → m.isDir = false →
      restoreStep m =
        RestoreAction.warn ("Unknown backup file " ++ m.name)) ∧
    restoreTrace (m :: rest) = restoreStep m :: restoreTrace rest := by
  refine ⟨?_, ?_, ?_, ?_, rfl⟩
  · intro h1
    simp [restoreStep, h1]
  · intro h1 h2
    simp [restoreStep, h1, h2]
  · intro h1 h2 h3
    constructor
    · simp [restoreStep, h1, h2, h3]
    · simp [restoreStep, h1, h2, h3, RestoreAction.errOutput]
  · intro h1 h2 h3
    simp [restoreStep, h1, h2, h3]

/-- Witness for C8: one member of each kind, dispatched as the claim says. -/
theorem restore_member_dispatch_witness :
    restoreStep ⟨"demo/backup.dump", false, "DUMP"⟩ =
      RestoreAction.restoreDb "DUMP" ∧
    restoreStep ⟨"demo/awx-demo-admin-password_secret.json", false, "J"⟩ =
      RestoreAction.restoreSecret "J" ∧
    (restoreStep ⟨"demo", true, ""⟩ = RestoreAction.skip ∧
      (restoreStep ⟨"demo", true, ""⟩).errOutput = none) ∧
    restoreStep ⟨"demo/README", false, "x"⟩ =
      RestoreAction.warn ("Unknown backup file " ++ "demo/README") := by
  refine ⟨?_, ?_, ?_, ?_⟩
  · exact (restore_member_dispatch ⟨"demo/backup.dump", false, "DUMP"⟩
      []).1 (by decide)
  · exact (restore_member_dispatch
      ⟨"demo/awx-demo-admin-password_secret.json", false, "J"⟩ []).2.1
      (by decide) (by decide)
  · exact (restore_member_dispatch ⟨"demo", true, ""⟩ []).2.2.1
      (by decide) (by decide) rfl
  · exact (restore_member_dispatch ⟨"demo/README", false, "x"⟩ []).2.2.2.1
      (by decide) (by decide) rfl

/-- C9: restore normalizes its argument so the archive path always ends in
`.tar`: a name without the suffix opens the same file as the name with the
suffix appended, a name with the suffix is used unchanged, and the
normalization is idempotent. -/
theorem restore_tar_name_normalization (name : String) :
    (endsWithPy name ".tar" = false →
      restoreTarName name = restoreTarName (name ++ ".tar")) ∧
    (endsWithPy name ".tar" = true → restoreTarName name = name) ∧
    restoreTarName (restoreTarName name) = restoreTarName name := by
  have happ := endsWithPy_append name ".tar"
  refine ⟨?_, ?_, ?_⟩
  · intro h
    simp [restoreTarName, h, happ]
  · intro h
    simp [restoreTarName, h]
  · by_cases h : endsWithPy name ".tar" = true
    · simp [restoreTarName, h]
    · have hf : endsWithPy name ".tar" = false := Bool.eq_false_iff.mpr h
      simp [restoreTarName, hf, happ]

/-- Witness for C9 at the names `demo` and `demo.tar`. -/
theorem restore_tar_name_normalization_witness :
    endsWithPy "demo" ".tar" = false ∧
    restoreTarName "demo" = restoreTarName ("demo" ++ ".tar") ∧
    endsWithPy "demo.tar" ".tar" = true ∧
    restoreTarName "demo.tar" = "demo.tar" := by
  refine ⟨by decide, ?_, by decide, ?_⟩
  · exact (restore_tar_name_normalization "demo").1 (by decide)
  · exact (restore_tar_name_normalization "demo.tar").2.1 (by decide)

/-! ### Claim theorems about `backup` -/

/-- C1 counterexample: with operator name `awx` the database-configuration
secret is `awx-postgres-configuration`; the listed secret
`foo-postgres-configuration` is distinct from it, yet backup writes no
`foo-postgres-configuration_secret.json` file, because the code excludes by
the `postgres-configuration` name suffix rather than by equality with the
database-configuration secret's name. -/
theorem backup_secret_iff_counterexample :
    "foo-postgres-configuration" ∈ suffixTrapCluster.secretNames ∧
    ¬ (((alookup (backupWorkdirFiles suffixTrapCluster)
          ("foo-postgres-configuration" ++ "_secret.json")).isSome = true) ↔
        "foo-postgres-configuration" ≠ dbConfigSecretName "awx") := by
  decide

/-- C1 (amended): during backup, for every name in the cluster's secret
listing, a file `<name>_secret.json` is written into the working directory
iff the name does not end in `postgres-configuration`; every non-excluded
secret yields exactly one such file, containing the JSON the cluster
returned for it. -/
theorem backup_writes_secret_file_iff (c : ClusterState) (n : String)
    (hmem : n ∈ c.secretNames) :
    ((alookup (backupWorkdirFiles c) (n ++ "_secret.json")).isSome = true ↔
      endsWithPy n "postgres-configuration" = false) ∧
    (endsWithPy n "postgres-configuration" = false →
      alookup (backupWorkdirFiles c) (n ++ "_secret.json") =
        some (c.secretJson n)) := by
  have hwrite : endsWithPy n "postgres-configuration" = false →
      alookup (backupWorkdirFiles c) (n ++ "_secret.json") =
        some (c.secretJson n) := by
    intro hkeep
    simp only [backupWorkdirFiles, backupSecretsLoop]
    exact secretsFold_lookup_written _ _ _ _ hmem hkeep
  refine ⟨⟨?_, ?_⟩, hwrite⟩
  · intro hsome
    by_contra hne
    have hkeep : endsWithPy n "postgres-configuration" = true := by
      cases hh : endsWithPy n "postgres-configuration"
      · exact absurd hh hne
      · rfl
    have hside : ∀ n' ∈ c.secretNames,
        endsWithPy n' "postgres-configuration" = false →
        n ++ "_secret.json" ≠ n' ++ "_secret.json" := by
      intro n' hn' hkeep' heq
      have he := append_cancel_right_str heq
      rw [he] at hkeep
      rw [hkeep] at hkeep'
      exact Bool.noConfusion hkeep'
    have hnone : alookup (backupWorkdirFiles c) (n ++ "_secret.json") =
        none := by
      simp only [backupWorkdirFiles, backupSecretsLoop]
      rw [secretsFold_lookup_of_no_write _ _ _ _ hside]
      rw [alookup_aset_ne _ _ (Ne.symm (backup_dump_name_ne n))]
      rfl
    rw [hnone] at hsome
    exact Bool.noConfusion hsome
  · intro hkeep
    rw [hwrite hkeep]
    rfl

/-- Witness for C1 (amended): in the two-secret scenario,
`awx-demo-admin-password` is exported with the cluster's JSON. -/
theorem backup_writes_secret_file_iff_witness :
    "awx-demo-admin-password" ∈ demoBackupCluster.secretNames ∧
    (((alookup (backupWorkdirFiles demoBackupCluster)
        ("awx-demo-admin-password" ++ "_secret.json")).isSome = true ↔
      endsWithPy "awx-demo-admin-password" "postgres-configuration" =
        false) ∧
    (endsWithPy "awx-demo-admin-password" "postgres-configuration" = false →
      alookup (backupWorkdirFiles demoBackupCluster)
          ("awx-demo-admin-password" ++ "_secret.json") =
        some (demoBackupCluster.secretJson "awx-demo-admin-password"))) :=
  ⟨by decide, backup_writes_secret_file_iff demoBackupCluster
    "awx-demo-admin-password" (by decide)⟩

/-- C7: after a successful backup run the working directory no longer
exists, the archive is `<name>.tar`, and its members are exactly the
directory entry for `<name>`, the file `<name>/backup.dump` with the dump
bytes, and one `<name>/<secret>_secret.json` file per exported secret with
the cluster's JSON — nothing else, and each member exactly once. -/
theorem backup_archive_exact_contents (c : ClusterState) (name : String) :
    (backup c name).workdirExists = false ∧
    (backup c name).tarName = name ++ ".tar" ∧
    (backup c name).tarMembers.Nodup ∧
    ∀ m, m ∈ (backup c name).tarMembers ↔
      (m = TarMember.dir name ∨
       m = TarMember.file (name ++ "/" ++ "backup.dump") c.dumpOutput ∨
       ∃ s, s ∈ c.secretNames ∧
         endsWithPy s "postgres-configuration" = false ∧
         m = TarMember.file (name ++ "/" ++ (s ++ "_secret.json"))
           (c.secretJson s)) := by
  have hkn := backupWorkdirFiles_keys_nodup c
  refine ⟨rfl, rfl, ?_, ?_⟩
  · simp only [backup]
    rw [List.nodup_cons]
    constructor
    · intro hmem
      rcases List.mem_map.mp hmem with ⟨p, _, hf⟩
      simp at hf
    · refine List.Nodup.map ?_ (List.Nodup.of_map Prod.fst hkn)
      intro p q hpq
      obtain ⟨p1, p2⟩ := p
      obtain ⟨q1, q2⟩ := q
      simp only [TarMember.file.injEq] at hpq
      obtain ⟨h1, h2⟩ := hpq
      have h3 := append_cancel_left_str h1
      simp [h3, h2]
  · intro m
    simp only [backup, List.mem_cons]
    constructor
    · rintro (h | h)
      · exact Or.inl h
      · rcases List.mem_map.mp h with ⟨⟨k, v⟩, hp, hf⟩
        have hl := (mem_iff_alookup _ _ _ hkn).mp hp
        subst hf
        rcases (backupWorkdirFiles_lookup c k v).mp hl with
          ⟨hk, hv⟩ | ⟨s, hs, hkeep, hk, hv⟩
        · right
          left
          simp [hk, hv]
        · right
          right
          exact ⟨s, hs, hkeep, by simp [hk, hv]⟩
    · rintro (h | h | ⟨s, hs, hkeep, h⟩)
      · exact Or.inl h
      · right
        apply List.mem_map.mpr
        refine ⟨("backup.dump", c.dumpOutput), ?_, by rw [h]⟩
        exact (mem_iff_alookup _ _ _ hkn).mpr
          ((backupWorkdirFiles_lookup c _ _).mpr (Or.inl ⟨rfl, rfl⟩))
      · right
        apply List.mem_map.mpr
        refine ⟨(s ++ "_secret.json", c.secretJson s), ?_, by rw [h]⟩
        exact (mem_iff_alookup _ _ _ hkn).mpr
          ((backupWorkdirFiles_lookup c _ _).mpr
            (Or.inr ⟨s, hs, hkeep, rfl, rfl⟩))

end Backup
